import Mathlib

/-!
Verification of the multi-provider LLM completion/search gateway
(`src/core/llm_factory.py` and `src/services/search/kagi.py`).

Python strings are modelled as `List Char`; each Python helper is translated
into an executable Lean function.  Network transports are modelled as
environments mapping request identities to outcomes, and Python exceptions
as `Except` values.
-/

set_option maxRecDepth 8192

/-- Python strings, modelled as lists of characters. -/
abbrev Str := List Char

/-- Coerce a Lean string literal into the `Str` model. -/
def lit (s : String) : Str := s.toList

/-- The predicate used by `rstrip("/")`: the character is a slash. -/
def isSlash (c : Char) : Bool := c = '/'

/-- Python `s.rstrip("/")`: remove every trailing slash. -/
def rstripSlash (s : Str) : Str := (s.reverse.dropWhile isSlash).reverse

/-- Python ASCII lower-casing of one character (`str.lower` restricted to
the ASCII range, which covers every string the gateway handles). -/
def pyLowerChar (c : Char) : Char :=
  if 65 ≤ c.toNat ∧ c.toNat ≤ 90 then Char.ofNat (c.toNat + 32) else c

/-- Python `s.lower()`. -/
def lowerStr (s : Str) : Str := s.map pyLowerChar

/-- Python `pat in s` substring membership test. -/
def containsSub (pat : Str) : Str → Bool
  | [] => pat.isPrefixOf ([] : Str)
  | c :: rest => pat.isPrefixOf (c :: rest) || containsSub pat rest

/-- Python `url.startswith(("http://", "https://"))`. -/
def startsWithScheme (s : Str) : Bool :=
  (lit "http://").isPrefixOf s || (lit "https://").isPrefixOf s

/-- Python `s.replace("/v1", "")`: remove every (non-overlapping,
left-to-right) occurrence of the substring `/v1`. -/
def replaceV1 : Str → Str
  | '/' :: 'v' :: '1' :: rest => replaceV1 rest
  | c :: rest => c :: replaceV1 rest
  | [] => []

/-- The suffixes stripped by `sanitize_url`, in the source order. -/
def urlSuffixes : List Str :=
  [lit "/chat/completions", lit "/completions", lit "/messages", lit "/embeddings"]

/-- One iteration of the suffix-stripping loop in `sanitize_url`:
`if url.endswith(suffix): url = url[:-len(suffix)]; url = url.rstrip("/")`. -/
def stripOneSuffix (url : Str) (suffix : Str) : Str :=
  if suffix.isSuffixOf url then rstripSlash (url.take (url.length - suffix.length))
  else url

/-- The whole suffix-stripping `for` loop of `sanitize_url`. -/
def stripSuffixes (url : Str) : Str := urlSuffixes.foldl stripOneSuffix url

/-- `if url and not url.startswith(("http://", "https://")): url = "http://" + url`. -/
def addScheme (url : Str) : Str :=
  if url ≠ [] ∧ ¬ startsWithScheme url then lit "http://" ++ url else url

/-- The local-Ollama condition of `sanitize_url` (line 193):
`":11434" in url or ("ollama" in url.lower() and "ollama.com" not in url.lower())`. -/
def ollamaLocalCond (url : Str) : Bool :=
  containsSub (lit ":11434") url ||
    (containsSub (lit "ollama") (lowerStr url) &&
      !containsSub (lit "ollama.com") (lowerStr url))

/-- The `/v1`-appending step of `sanitize_url`. -/
def ensureV1 (url : Str) : Str :=
  if ollamaLocalCond url then
    if (lit "/v1").isSuffixOf url then url else rstripSlash url ++ lit "/v1"
  else url

/-- `sanitize_url` from `src/core/llm_factory.py` (the unused `model`
parameter is omitted). -/
def sanitize_url (base_url : Str) : Str :=
  if base_url = [] then base_url
  else ensureV1 (stripSuffixes (addScheme (rstripSlash base_url)))

deriving instance DecidableEq for Except

/-! ## Provider dispatch table (`LLMFactory.get_completion_function`) -/

/-- The two transport strategies the factory can hand out. -/
inductive Transport where
  | anthropicComplete
  | openaiCompleteIfCache
deriving DecidableEq

/-- `LLMFactory.get_completion_function` from `src/core/llm_factory.py`:
lower-case the binding, map `anthropic`/`claude` to the Anthropic transport,
keep the explicit `ollama-cloud` branch, default everything else to the
OpenAI-compatible transport. -/
def get_completion_function (binding : Str) : Transport :=
  let b := lowerStr binding
  if b = lit "anthropic" ∨ b = lit "claude" then .anthropicComplete
  else if b = lit "ollama-cloud" then .openaiCompleteIfCache
  else .openaiCompleteIfCache

/-! ## Completion gateway (`llm_complete`) -/

/-- Python exceptions observable from the gateway: the `ValueError` the
gateway itself raises on an empty primary response, and any other exception
value (identified by a code). -/
inductive PyErr where
  | valueError (msg : Str)
  | exnOther (code : Nat)
deriving DecidableEq

/-- Outcome of the primary transport call: a returned string, or a raised
exception. -/
inductive PrimaryOutcome where
  | ok (s : Str)
  | raised (e : PyErr)
deriving DecidableEq

/-- The `message` object of a chat-completion choice; each field is `none`
when the JSON key is absent. -/
structure ChatMessage where
  content : Option Str
  reasoning_content : Option Str
  reasoning : Option Str
  thought : Option Str
deriving DecidableEq

/-- One entry of the `choices` array; `message` is `none` when the key is
absent (`choices[0].get("message", {})`). -/
structure ChatChoice where
  message : Option ChatMessage
deriving DecidableEq

/-- The JSON body of a chat-completion response; `choices = none` models a
body without a `"choices"` key. -/
structure ChatBody where
  choices : Option (List ChatChoice)
deriving DecidableEq

/-- Outcome of the direct fallback HTTP POST: a raised transport exception,
or a status code together with the parsed JSON body (`Except.error` when
`resp.json()` itself raises). -/
inductive HttpOutcome where
  | raised
  | resp (status : Nat) (body : Except Unit ChatBody)
deriving DecidableEq

/-- Python truthiness of an `a or b or c or ""` chain over optional strings:
the first non-`None`, non-empty string, else `""`. -/
def firstTruthy : List (Option Str) → Str
  | [] => []
  | none :: rest => firstTruthy rest
  | some s :: rest => if s ≠ [] then s else firstTruthy rest

/-- Content extraction from one message object (lines 293-302):
`content = msg.get("content", "")`, and when that is empty, the first
truthy of `reasoning_content`, `reasoning`, `thought`, else `""`. -/
def msgExtract (m : ChatMessage) : Str :=
  let content := m.content.getD []
  if content = [] then firstTruthy [m.reasoning_content, m.reasoning, m.thought]
  else content

/-- The empty message dict used as default for `choices[0].get("message", {})`. -/
def emptyMessage : ChatMessage := ⟨none, none, none, none⟩

/-- Lines 291-305: the value returned from a 200 fallback body, when any.
`none` means control falls through (and the original error is re-raised). -/
def extractContent (b : ChatBody) : Option Str :=
  match b.choices with
  | some (ch :: _) =>
    let c := msgExtract (ch.message.getD emptyMessage)
    if c ≠ [] then some c else none
  | some [] => none
  | none => none

/-- Line 266-268: the URL of the fallback POST,
`base_url.rstrip("/")` plus `"/chat/completions"` unless already present. -/
def fallbackUrlOf (base : Str) : Str :=
  let u := rstripSlash base
  if (lit "/chat/completions").isSuffixOf u then u else u ++ lit "/chat/completions"

/-- The OpenAI-compatible binding family checked at line 255-262. -/
def openaiCompatList : List Str :=
  [lit "openai", lit "ollama", lit "ollama-cloud", lit "deepseek",
   lit "openrouter", lit "gemini"]

/-- Result of the whole fallback request-and-extract block: `some content`
when a 200 response yields non-empty content, `none` otherwise (non-200,
transport exception, JSON error, or empty/absent content). -/
def tryFallbackCall (fb : Str → HttpOutcome) (base : Str) : Option Str :=
  match fb (fallbackUrlOf base) with
  | .raised => none
  | .resp status body =>
    if status = 200 then
      match body with
      | .ok b => extractContent b
      | .error _ => none
    else none

/-- Line 216-218: the gateway sanitizes `base_url` when it is truthy and the
resolved transport is OpenAI-compatible (or the raw binding is `openai` or
`ollama`). -/
def sanitizedBase (binding : Str) (base_url : Option Str) : Option Str :=
  match base_url with
  | none => none
  | some u =>
    if u ≠ [] ∧ (get_completion_function binding = .openaiCompleteIfCache
        ∨ binding = lit "openai" ∨ binding = lit "ollama")
    then some (sanitize_url u) else some u

/-- Python truthiness of the (optional) base URL. -/
def baseTruthy : Option Str → Bool
  | none => false
  | some u => u ≠ []

/-- The message of the `ValueError` raised on an empty primary response. -/
def emptyRespMsg : Str := lit "Empty response from standard driver"

/-- The error held in `e` when the primary attempt fails: the raised
exception, or the empty-response `ValueError`; `none` when the primary
attempt succeeded with non-empty content. -/
def originalErr : PrimaryOutcome → Option PyErr
  | .ok s => if s = [] then some (.valueError emptyRespMsg) else none
  | .raised e => some e

/-- Observable result of one `llm_complete` call: the returned string or the
raised error, together with the URL of the fallback POST when one was
issued. -/
structure GWRun where
  result : Except PyErr Str
  posted : Option Str
deriving DecidableEq

/-- The `except` block of `llm_complete` (lines 251-315): try the fallback
when the binding is OpenAI-compatible and the base URL is truthy, otherwise
(or when the fallback yields nothing) re-raise the original error `e`. -/
def fallbackPhase (binding : Str) (base : Option Str)
    (fb : Str → HttpOutcome) (e : PyErr) : GWRun :=
  if lowerStr binding ∈ openaiCompatList ∧ baseTruthy base then
    let b := base.getD []
    match tryFallbackCall fb b with
    | some c => ⟨.ok c, some (fallbackUrlOf b)⟩
    | none => ⟨.error e, some (fallbackUrlOf b)⟩
  else ⟨.error e, none⟩

/-- `llm_complete` from `src/core/llm_factory.py`.  The primary transport's
outcome and the fallback HTTP responses are supplied as an environment. -/
def llm_complete (binding : Str) (base_url : Option Str)
    (primary : PrimaryOutcome) (fb : Str → HttpOutcome) : GWRun :=
  let base := sanitizedBase binding base_url
  match primary with
  | .ok s =>
    if s ≠ [] then ⟨.ok s, none⟩
    else fallbackPhase binding base fb (.valueError emptyRespMsg)
  | .raised e => fallbackPhase binding base fb e

def fbOk (s : String) : Str → HttpOutcome := fun _ =>
  .resp 200 (.ok ⟨some [⟨some ⟨some (lit s), none, none, none⟩⟩]⟩)

/-! ## Model discovery (`LLMFactory.fetch_models` / `llm_fetch_models`) -/

/-- One entry of a model-listing array: a JSON object carrying optional
`id`/`name` string fields, or a bare JSON primitive carrying its `str()`
rendering. -/
inductive MEntry where
  | obj (id name : Option Str)
  | prim (s : Str)
deriving DecidableEq

/-- The parsed top-level JSON of a listing response: an object (only the
`data` and `models` keys matter to the code; `none` = key absent, and a
present key is modelled as holding a list), or a bare top-level array. -/
inductive TopJson where
  | obj (data models : Option (List MEntry))
  | arr (items : List MEntry)
deriving DecidableEq

/-- Outcome of one `session.get`: a raised transport exception, or a status
code with the parsed JSON (`Except.error` when `resp.json()` raises). -/
inductive GetOutcome where
  | raised
  | resp (status : Nat) (body : Except Unit TopJson)
deriving DecidableEq

/-- Python `m["name"]`: raises (`KeyError` / `TypeError`) unless `m` is an
object with a `name` field. -/
def indexName : MEntry → Except Unit Str
  | .obj _ (some n) => .ok n
  | .obj _ none => .error ()
  | .prim _ => .error ()

/-- `[m["name"] for m in ms]`: first failure raises. -/
def namesOf (ms : List MEntry) : Except Unit (List Str) := ms.mapM indexName

/-- Python truthiness of an optional string (`None` and `""` are falsy). -/
def truthyOpt : Option Str → Bool
  | none => false
  | some s => s ≠ []

/-- Python `a or b` on two optional strings. -/
def pyOr (a b : Option Str) : Option Str := if truthyOpt a then a else b

/-- Python `m.get("id") or m.get("name")`: raises (`AttributeError`) on a
non-dict entry. -/
def idOrName : MEntry → Except Unit (Option Str)
  | .obj i n => .ok (pyOr i n)
  | .prim _ => .error ()

/-- `[m.get("id") or m.get("name") for m in ms if m.get("id") or m.get("name")]`. -/
def collectIdName (ms : List MEntry) : Except Unit (List Str) :=
  ms.foldlM
    (fun acc m => do
      let v ← idOrName m
      pure (if truthyOpt v then acc ++ [v.getD []] else acc))
    []

/-- `str(m)` for a listing entry.  The exact rendering of a dict entry is
immaterial to every claim; it is abstracted as `"dict"`. -/
def pyStr : MEntry → Str
  | .prim s => s
  | .obj _ _ => lit "dict"

/-- Strategy-1 body parse (lines 112-114): on an object, `"models" in data`
selects the `[m["name"] ...]` comprehension; on a bare array, `"models" in
data` is a membership test and `data.get` raises when it succeeds.
`Except.error` = an exception (caught by the inner handler); `.ok none` =
no `models` key, fall through. -/
def strat1Parse : TopJson → Except Unit (Option (List Str))
  | .obj _ (some ms) => do pure (some (← namesOf ms))
  | .obj _ none => pure none
  | .arr items => if MEntry.prim (lit "models") ∈ items then .error () else pure none

/-- Strategy-2 envelope dispatch (lines 122-149).  `Except.error` = an
exception (uncaught here, so it reaches the outer handler); `.ok none` = no
envelope matched, fall through to the cloud fallback. -/
def strat2Parse : TopJson → Except Unit (Option (List Str))
  | .obj (some l) _ => do pure (some (← collectIdName l))
  | .obj none (some l) =>
    match l with
    | [] => pure (some [])
    | .obj _ _ :: _ => do pure (some (← collectIdName l))
    | .prim _ :: _ => pure (some (l.map pyStr))
  | .obj none none => pure none
  | .arr l =>
    match l with
    | [] => pure (some [])
    | .obj _ _ :: _ => do pure (some (← collectIdName l))
    | .prim _ :: _ => pure (some (l.map pyStr))

/-- Strategy-3 body parse (line 158): `[m["name"] for m in data.get("models", [])]`
with no `"models" in data` guard; `.get` raises on a bare array. -/
def strat3Parse : TopJson → Except Unit (List Str)
  | .obj _ mdls => namesOf (mdls.getD [])
  | .arr _ => .error ()

/-- Line 108/153: the `/api/tags` URL — note the source removes EVERY
occurrence of `/v1` (`.replace("/v1", "")`), not only a trailing one. -/
def tagsUrl (base : Str) : Str := replaceV1 (rstripSlash base) ++ lit "/api/tags"

/-- Line 119: the `/models` URL. -/
def modelsUrl (base : Str) : Str := rstripSlash base ++ lit "/models"

/-- Lines 101-105, with Python operator precedence:
`((binding == "ollama" or "ollama" in base_url.lower()) and "ollama.com" not
in base_url.lower()) or ":11434" in base_url`. -/
def likelyLocalOllama (binding base : Str) : Bool :=
  ((binding = lit "ollama" || containsSub (lit "ollama") (lowerStr base)) &&
    !containsSub (lit "ollama.com") (lowerStr base)) ||
  containsSub (lit ":11434") base

/-- Observable result of the body of `fetch_models` (inside the outer
`try`): the outcome (`.error` = an uncaught exception reaching the outer
handler) and the URLs requested, in order. -/
structure FetchResult where
  outcome : Except Unit (List Str)
  requests : List Str
deriving DecidableEq

/-- The `ollama.com` fallback block (lines 151-160) followed by `return []`
(line 162). -/
def strat3Phase (base : Str) (env : Str → GetOutcome) (reqs : List Str) : FetchResult :=
  if containsSub (lit "ollama.com") base then
    let r := reqs ++ [tagsUrl base]
    match env (tagsUrl base) with
    | .raised => ⟨.ok [], r⟩
    | .resp st body =>
      if st = 200 then
        match body with
        | .error _ => ⟨.ok [], r⟩
        | .ok j =>
          match strat3Parse j with
          | .error _ => ⟨.ok [], r⟩
          | .ok names => ⟨.ok names, r⟩
      else ⟨.ok [], r⟩
  else ⟨.ok [], reqs⟩

/-- Strategy 2 (lines 118-149) followed by the cloud fallback and the final
`return []`.  Unlike strategy 1 this block has no inner `try`, so
exceptions here escape to the outer handler (`outcome = .error ()`). -/
def strat2Phase (base : Str) (env : Str → GetOutcome) (reqs : List Str) : FetchResult :=
  let reqs2 := reqs ++ [modelsUrl base]
  match env (modelsUrl base) with
  | .raised => ⟨.error (), reqs2⟩
  | .resp st body =>
    if st = 200 then
      match body with
      | .error _ => ⟨.error (), reqs2⟩
      | .ok j =>
        match strat2Parse j with
        | .error _ => ⟨.error (), reqs2⟩
        | .ok (some l) => ⟨.ok l, reqs2⟩
        | .ok none => strat3Phase base env reqs2
    else strat3Phase base env reqs2

/-- The body of `LLMFactory.fetch_models` (lines 86-162), i.e. everything
inside the outer `try`.  `env` maps a request URL to its outcome. -/
def fetch_models_body (binding0 base0 : Str) (env : Str → GetOutcome) : FetchResult :=
  let binding := lowerStr binding0
  let base := rstripSlash base0
  let afterS1 : Option (List Str) × List Str :=
    if likelyLocalOllama binding base then
      let r := [tagsUrl base]
      match env (tagsUrl base) with
      | .raised => (none, r)
      | .resp st body =>
        if st = 200 then
          match body with
          | .error _ => (none, r)
          | .ok j =>
            match strat1Parse j with
            | .error _ => (none, r)
            | .ok none => (none, r)
            | .ok (some names) => (some names, r)
        else (none, r)
    else (none, [])
  match afterS1 with
  | (some names, reqs) => ⟨.ok names, reqs⟩
  | (none, reqs) => strat2Phase base env reqs

/-- `LLMFactory.fetch_models` with its outer `try/except` (lines 96-165):
any exception escaping the body is caught and turned into `[]`.  The result
is `Except`-typed so that "never raises" is expressible. -/
def fetch_models (binding base : Str) (env : Str → GetOutcome) : Except Unit (List Str) :=
  match (fetch_models_body binding base env).outcome with
  | .ok l => .ok l
  | .error _ => .ok []

/-- `llm_fetch_models` (line 318): a direct delegation. -/
def llm_fetch_models (binding base : Str) (env : Str → GetOutcome) : Except Unit (List Str) :=
  fetch_models binding base env

def env404 : Str → GetOutcome := fun _ => .resp 404 (.ok (.obj none none))

def envRaise : Str → GetOutcome := fun _ => .raised

def envTags : Str → GetOutcome := fun _ =>
  .resp 200 (.ok (.obj none (some [.obj none (some (lit "m1"))])))

/-! ## Retrying search client (`KagiSearch` in `src/services/search/kagi.py`) -/

/-- The characters stripped by Python `str.strip()` (ASCII whitespace). -/
def isPySpace (c : Char) : Bool :=
  c = ' ' || c = '\t' || c = '\n' || c = '\x0d' || c = '\x0b' || c = '\x0c'

/-- Python `s.strip()`. -/
def pyStrip (s : Str) : Str :=
  ((s.dropWhile isPySpace).reverse.dropWhile isPySpace).reverse

/-- Python `int(s)` on a decimal string: optional surrounding whitespace,
optional sign, at least one digit; `none` models a raised `ValueError`
(digit-group underscores are not modelled; no claim involves them). -/
def pyInt (s : Str) : Option Int :=
  let t := pyStrip s
  let core : Str → Option Int := fun ds =>
    if ds ≠ [] ∧ ds.all Char.isDigit
    then some (Int.ofNat (ds.foldl (fun acc c => acc * 10 + (c.toNat - 48)) 0))
    else none
  match t with
  | '-' :: ds => (core ds).map Int.neg
  | '+' :: ds => core ds
  | ds => core ds

/-- The exception hierarchy of the search client: `RateLimitError` is kept
distinguishable from the generic `SearchError`. -/
inductive KErr where
  | SearchError (msg : Str)
  | RateLimitError (msg : Str)
deriving DecidableEq

/-- `KagiSearch._validate_query` (lines 39-68). -/
def validate_query (query : Str) : Except KErr Str :=
  if pyStrip query = [] then
    .error (.SearchError (lit "Search query cannot be empty or whitespace only"))
  else if (pyStrip query).length > 2000 then
    .error (.SearchError (lit "Search query is too long (" ++
      (Nat.repr (pyStrip query).length).toList ++
      lit " characters). Maximum allowed length is 2000 characters"))
  else .ok (pyStrip query)

/-- Outcome of one GET in the retry loop: a raised transport exception
(with its `str()` rendering), or a response with status, optional
`Retry-After` header, the parsed 200 payload (`Except.error m` when
`response.json()` raises `m`), and the computed non-200 error detail
(`Except.error m` when computing it raises `m`). -/
inductive KOutcome where
  | raised (msg : Str)
  | resp (status : Nat) (retryAfter : Option Str)
         (payload : Except Str Str) (detail : Except Str Str)
deriving DecidableEq

/-- Observable result of one `KagiSearch.search` call: the returned payload
or the raised error, the backoff sleeps in order, and the number of HTTP
requests issued. -/
structure KRun where
  result : Except KErr Str
  sleeps : List Int
  requests : Nat
deriving DecidableEq

/-- The HTTP-429 message, including the optional `Retry-After` note
(line 111-113). -/
def rateLimit429Msg (ra : Option Str) : Str :=
  lit "Kagi Search API rate limit exceeded (HTTP 429)" ++
    (match ra with
     | some s => lit " (Retry-After: " ++ s ++ lit "s)"
     | none => [])

/-- `for attempt in range(max_retries)` (lines 99-155), fuelled by the
number of remaining iterations.  The base case is the fall-through after
the loop: `last_exception` is provably never set when it is reached (every
generic exception is re-raised immediately), so the generic
`SearchError("... Unknown error after retries")` is raised. -/
def searchLoop (maxRetries : Int) (env : Nat → KOutcome) :
    Nat → Nat → List Int → Nat → KRun
  | 0, _, sleeps, reqs =>
    ⟨.error (.SearchError (lit "Kagi Search API error: Unknown error after retries")),
     sleeps, reqs⟩
  | fuel + 1, attempt, sleeps, reqs =>
    match env attempt with
    | .raised m =>
      ⟨.error (.SearchError (lit "Kagi Search API error: " ++ m)), sleeps, reqs + 1⟩
    | .resp st ra payload detail =>
      if st = 429 then
        if (attempt : Int) < maxRetries - 1 then
          let wait : Int :=
            match ra with
            | none => 2 ^ attempt
            | some s =>
              match pyInt s with
              | some n => n
              | none => 2 ^ attempt
          searchLoop maxRetries env fuel (attempt + 1) (sleeps ++ [wait]) (reqs + 1)
        else
          ⟨.error (.RateLimitError (rateLimit429Msg ra ++ lit ". Max retries (" ++
            (toString maxRetries).toList ++ lit ") exceeded.")), sleeps, reqs + 1⟩
      else if st ≠ 200 then
        match detail with
        | .ok d =>
          ⟨.error (.SearchError (lit "Kagi Search API error: " ++
            (Nat.repr st).toList ++ lit " - " ++ d)), sleeps, reqs + 1⟩
        | .error m =>
          ⟨.error (.SearchError (lit "Kagi Search API error: " ++ m)), sleeps, reqs + 1⟩
      else
        match payload with
        | .ok p => ⟨.ok p, sleeps, reqs + 1⟩
        | .error m =>
          ⟨.error (.SearchError (lit "Kagi Search API error: " ++ m)), sleeps, reqs + 1⟩

/-- The default of the `max_retries` parameter of `KagiSearch.search`. -/
def default_max_retries : Int := 3

/-- `KagiSearch.search` (lines 70-155).  The `limit` parameter only shapes
the request payload, which the environment abstracts. -/
def kagi_search (query : Str) (_limit : Option Int) (maxRetries : Int)
    (env : Nat → KOutcome) : KRun :=
  match validate_query query with
  | .error e => ⟨.error e, [], 0⟩
  | .ok _ => searchLoop maxRetries env maxRetries.toNat 0 [] 0

def envScenario1 : Nat → KOutcome := fun a =>
  if a = 0 then .resp 429 none (.error []) (.error [])
  else if a = 1 then .resp 429 (some (lit "1")) (.error []) (.error [])
  else .resp 200 none (.ok (lit "payload")) (.error [])

def envScenario2 : Nat → KOutcome := fun _ =>
  .resp 429 none (.error []) (.error [])

def env500 : Nat → KOutcome := fun _ => .resp 500 none (.error []) (.ok (lit "bad"))

/-- The last two characters of a string, used to tell probe URLs apart. -/
def lastTwo (s : Str) : Str := s.reverse.take 2

/-! ## Lemmas about `rstripSlash` and the shape of sanitized URLs -/

theorem dropWhile_dropWhile (p : Char → Bool) (l : List Char) :
    (l.dropWhile p).dropWhile p = l.dropWhile p := by
  induction l with
  | nil => rfl
  | cons a t ih =>
    by_cases h : p a
    · simp [List.dropWhile_cons_of_pos h, ih]
    · simp [List.dropWhile_cons_of_neg h]

theorem rstripSlash_rstripSlash (s : Str) :
    rstripSlash (rstripSlash s) = rstripSlash s := by
  simp [rstripSlash, dropWhile_dropWhile]

theorem length_dropWhile_le (p : Char → Bool) (l : List Char) :
    (l.dropWhile p).length ≤ l.length := by
  induction l with
  | nil => simp
  | cons a t ih =>
    by_cases h : p a
    · rw [List.dropWhile_cons_of_pos h]
      exact Nat.le_succ_of_le ih
    · rw [List.dropWhile_cons_of_neg h]

/-- Appending a nonempty string with no trailing slash leaves nothing for
`rstrip("/")` to remove. -/
theorem rstripSlash_append (s t : Str) (ht : rstripSlash t = t) (hne : t ≠ []) :
    rstripSlash (s ++ t) = s ++ t := by
  have h1 : t.reverse.dropWhile isSlash = t.reverse := by
    have h2 := congrArg List.reverse ht
    simpa [rstripSlash] using h2
  obtain ⟨c, r, hcr⟩ : ∃ c r, t.reverse = c :: r := by
    cases h : t.reverse with
    | nil =>
      have : t = [] := by simpa using congrArg List.reverse h
      exact absurd this hne
    | cons c r => exact ⟨c, r, rfl⟩
  have hpc : isSlash c = false := by
    by_contra hp
    rw [Bool.not_eq_false] at hp
    rw [hcr, List.dropWhile_cons_of_pos hp] at h1
    have hlen := congrArg List.length h1
    have hle := length_dropWhile_le isSlash r
    simp at hlen
    omega
  have ht2 : t = r.reverse ++ [c] := by
    have := congrArg List.reverse hcr
    simpa using this
  rw [rstripSlash, List.reverse_append, hcr, List.cons_append,
    List.dropWhile_cons_of_neg (by simp [hpc]), List.reverse_cons,
    List.reverse_append, List.reverse_reverse, ht2]
  simp

theorem rstripSlash_stripOneSuffix (x suf : Str) (hx : rstripSlash x = x) :
    rstripSlash (stripOneSuffix x suf) = stripOneSuffix x suf := by
  unfold stripOneSuffix
  split
  · exact rstripSlash_rstripSlash _
  · exact hx

theorem rstripSlash_foldl (sufs : List Str) (x : Str) (hx : rstripSlash x = x) :
    rstripSlash (sufs.foldl stripOneSuffix x) = sufs.foldl stripOneSuffix x := by
  induction sufs generalizing x with
  | nil => exact hx
  | cons a t ih => exact ih _ (rstripSlash_stripOneSuffix _ _ hx)

theorem rstripSlash_addScheme (x : Str) (hx : rstripSlash x = x) :
    rstripSlash (addScheme x) = addScheme x := by
  unfold addScheme
  split
  · rename_i h
    exact rstripSlash_append _ _ hx h.1
  · exact hx

theorem rstripSlash_ensureV1 (x : Str) (hx : rstripSlash x = x) :
    rstripSlash (ensureV1 x) = ensureV1 x := by
  unfold ensureV1
  split
  · split
    · exact hx
    · exact rstripSlash_append _ _ (by decide) (by decide)
  · exact hx

/-- A sanitized URL never ends with a slash. -/
theorem rstripSlash_sanitize_url (u : Str) :
    rstripSlash (sanitize_url u) = sanitize_url u := by
  unfold sanitize_url
  split
  · rename_i h
    rw [h]
    decide
  · exact rstripSlash_ensureV1 _
      (rstripSlash_foldl _ _ (rstripSlash_addScheme _ (rstripSlash_rstripSlash u)))

/-- When a sanitized URL satisfies the local-Ollama condition, it already
ends in `/v1` (the first application either appended it or found it). -/
theorem sanitize_url_v1_of_ollama (u : Str)
    (h : ollamaLocalCond (sanitize_url u) = true) :
    (lit "/v1").isSuffixOf (sanitize_url u) = true := by
  by_cases hu : u = []
  · rw [hu] at h
    exact absurd h (by decide)
  · unfold sanitize_url at h ⊢
    rw [if_neg hu] at h ⊢
    set w := stripSuffixes (addScheme (rstripSlash u)) with hw
    by_cases hc : ollamaLocalCond w = true
    · unfold ensureV1 at h ⊢
      rw [if_pos hc] at h ⊢
      by_cases hs : (lit "/v1").isSuffixOf w = true
      · rw [if_pos hs]
        exact hs
      · rw [if_neg hs]
        rw [List.isSuffixOf_iff_suffix]
        exact List.suffix_append _ _
    · unfold ensureV1 at h
      rw [if_neg hc] at h
      exact absurd h hc

theorem foldl_stripOneSuffix_id (sufs : List Str) (x : Str)
    (h : ∀ s ∈ sufs, s.isSuffixOf x = false) :
    sufs.foldl stripOneSuffix x = x := by
  induction sufs with
  | nil => rfl
  | cons a t ih =>
    have ha := h a (by simp)
    have hstep : stripOneSuffix x a = x := by
      simp [stripOneSuffix, ha]
    rw [List.foldl_cons, hstep]
    exact ih fun s hs => h s (by simp [hs])

/-! ## Claim theorems -/

/-- C3 (counterexample): `sanitize_url` is NOT idempotent.  Nested
strippable suffixes are stripped one layer per application, and suffix
stripping can eat into the scheme, which the next application then
re-prepends. -/
theorem sanitize_url_idempotent_counterexample :
    sanitize_url (sanitize_url (lit "http://x/completions/completions"))
        ≠ sanitize_url (lit "http://x/completions/completions") ∧
    sanitize_url (sanitize_url (lit "http:///completions"))
        ≠ sanitize_url (lit "http:///completions") := by
  decide

/-- C3 (amended): `sanitize_url` is idempotent on every base URL whose
normalized form is empty, or both keeps an `http://`/`https://` scheme
and does not end with one of the four strippable suffixes. -/
theorem sanitize_url_idempotent_amended (u : Str)
    (hscheme : sanitize_url u = [] ∨ startsWithScheme (sanitize_url u) = true)
    (hsuf : ∀ s ∈ urlSuffixes, s.isSuffixOf (sanitize_url u) = false) :
    sanitize_url (sanitize_url u) = sanitize_url u := by
  rcases hscheme with h0 | hs
  · rw [h0]
    decide
  · have hne : sanitize_url u ≠ [] := by
      intro h
      rw [h] at hs
      exact absurd hs (by decide)
    have hv1 : ollamaLocalCond (sanitize_url u) = true →
        (lit "/v1").isSuffixOf (sanitize_url u) = true :=
      sanitize_url_v1_of_ollama u
    set v := sanitize_url u with hv
    unfold sanitize_url
    rw [if_neg hne]
    have h1 : rstripSlash v = v := by
      rw [hv]
      exact rstripSlash_sanitize_url u
    rw [h1]
    have h2 : addScheme v = v := by
      unfold addScheme
      rw [if_neg]
      intro hcontra
      exact hcontra.2 hs
    rw [h2]
    have h3 : stripSuffixes v = v := by
      unfold stripSuffixes
      exact foldl_stripOneSuffix_id _ _ hsuf
    rw [h3]
    by_cases hc : ollamaLocalCond v = true
    · unfold ensureV1
      rw [if_pos hc, if_pos (hv1 hc)]
    · unfold ensureV1
      rw [if_neg hc]

/-- C3 (witness): a concrete URL whose normalized form satisfies the
amended hypotheses, on which idempotence holds. -/
theorem sanitize_url_idempotent_amended_witness :
    (startsWithScheme (sanitize_url (lit "api.example.com")) = true ∧
      ∀ s ∈ urlSuffixes, s.isSuffixOf (sanitize_url (lit "api.example.com")) = false) ∧
    sanitize_url (sanitize_url (lit "api.example.com"))
      = sanitize_url (lit "api.example.com") :=
  ⟨⟨by decide, by decide⟩,
    sanitize_url_idempotent_amended (lit "api.example.com") (Or.inr (by decide)) (by decide)⟩

/-- C9: `sanitize_url` maps `localhost:11434` to `http://localhost:11434/v1`
(scheme prepended, `/v1` appended for a local server) and strips the
`/chat/completions` suffix from `https://api.example.com/v1/chat/completions`. -/
theorem sanitize_url_concrete_cases :
    sanitize_url (lit "localhost:11434") = lit "http://localhost:11434/v1" ∧
    sanitize_url (lit "https://api.example.com/v1/chat/completions")
      = lit "https://api.example.com/v1" := by
  decide

/-- C5: the dispatch table is case-insensitive (it lower-cases the binding
before lookup), maps `anthropic`/`claude` to the Anthropic transport, maps
every tested binding (including `ollama-cloud`) to the OpenAI-compatible
transport, maps every binding other than `anthropic`/`claude` to the
OpenAI-compatible transport, and never rejects a binding. -/
theorem get_completion_function_dispatch :
    (∀ b1 b2 : Str, lowerStr b1 = lowerStr b2 →
      get_completion_function b1 = get_completion_function b2) ∧
    (get_completion_function (lit "anthropic") = .anthropicComplete ∧
      get_completion_function (lit "claude") = .anthropicComplete ∧
      get_completion_function (lit "openai") = .openaiCompleteIfCache ∧
      get_completion_function (lit "ollama") = .openaiCompleteIfCache ∧
      get_completion_function (lit "ollama-cloud") = .openaiCompleteIfCache ∧
      get_completion_function (lit "groq") = .openaiCompleteIfCache ∧
      get_completion_function (lit "openrouter") = .openaiCompleteIfCache ∧
      get_completion_function (lit "deepseek") = .openaiCompleteIfCache) ∧
    (∀ b : Str, lowerStr b ≠ lit "anthropic" → lowerStr b ≠ lit "claude" →
      get_completion_function b = .openaiCompleteIfCache) ∧
    (∀ b : Str, get_completion_function b = .anthropicComplete ∨
      get_completion_function b = .openaiCompleteIfCache) := by
  refine ⟨?_, by decide, ?_, ?_⟩
  · intro b1 b2 h
    unfold get_completion_function
    rw [h]
  · intro b h1 h2
    unfold get_completion_function
    rw [if_neg (by tauto)]
    split <;> rfl
  · intro b
    dsimp only [get_completion_function]
    split
    · exact Or.inl rfl
    · split <;> exact Or.inr rfl

/-- C5 (witness): the case-insensitivity and default conjuncts applied at
concrete bindings. -/
theorem get_completion_function_dispatch_witness :
    get_completion_function (lit "Anthropic") = get_completion_function (lit "anthropic") ∧
    get_completion_function (lit "GROQ") = .openaiCompleteIfCache :=
  ⟨get_completion_function_dispatch.1 (lit "Anthropic") (lit "anthropic") (by decide),
    get_completion_function_dispatch.2.2.1 (lit "GROQ") (by decide) (by decide)⟩

/-- A valid query passes `_validate_query` and comes back trimmed. -/
theorem validate_query_ok (q : Str) (h1 : pyStrip q ≠ [])
    (h2 : (pyStrip q).length ≤ 2000) :
    validate_query q = .ok (pyStrip q) := by
  unfold validate_query
  rw [if_neg h1, if_neg (by omega)]

/-- `strip()` of a string with no leading/trailing whitespace is itself. -/
theorem pyStrip_of_no_space (s : Str) (h : ∀ c ∈ s, isPySpace c = false) :
    pyStrip s = s := by
  unfold pyStrip
  have h1 : s.dropWhile isPySpace = s := by
    cases s with
    | nil => rfl
    | cons a t => rw [List.dropWhile_cons_of_neg (by simp [h a (by simp)])]
  rw [h1]
  have h2 : s.reverse.dropWhile isPySpace = s.reverse := by
    cases hs : s.reverse with
    | nil => rfl
    | cons a t =>
      have ha : a ∈ s := by
        rw [← List.mem_reverse, hs]
        simp
      rw [List.dropWhile_cons_of_neg (by simp [h a ha])]
  rw [h2, List.reverse_reverse]

theorem pyStrip_replicate_a :
    pyStrip (List.replicate 2001 'a') = List.replicate 2001 'a' :=
  pyStrip_of_no_space _ fun c hc => by
    rw [List.eq_of_mem_replicate hc]
    rfl

/-- C8: `KagiSearch.search` validates before any network call: the query is
trimmed; an all-whitespace query and a trimmed query longer than 2000
characters each raise a generic `SearchError` with zero HTTP requests
issued. -/
theorem kagi_search_validates_before_network (q : Str) (lim : Option Int)
    (mr : Int) (env : Nat → KOutcome) :
    (pyStrip q = [] →
      kagi_search q lim mr env =
        ⟨.error (.SearchError (lit "Search query cannot be empty or whitespace only")),
          [], 0⟩) ∧
    ((pyStrip q).length > 2000 →
      kagi_search q lim mr env =
        ⟨.error (.SearchError (lit "Search query is too long (" ++
          (Nat.repr (pyStrip q).length).toList ++
          lit " characters). Maximum allowed length is 2000 characters")), [], 0⟩) ∧
    (pyStrip q ≠ [] → (pyStrip q).length ≤ 2000 →
      validate_query q = .ok (pyStrip q)) := by
  refine ⟨?_, ?_, validate_query_ok q⟩
  · intro h
    unfold kagi_search validate_query
    rw [if_pos h]
  · intro h
    have hne : pyStrip q ≠ [] := by
      intro hnil
      rw [hnil] at h
      simp at h
    unfold kagi_search validate_query
    rw [if_neg hne, if_pos h]

/-- C8 (witness): an all-whitespace query and a 2001-character query each
fail validation with no request issued. -/
theorem kagi_search_validates_before_network_witness :
    kagi_search (lit " ") none 3 envScenario2 =
      ⟨.error (.SearchError (lit "Search query cannot be empty or whitespace only")),
        [], 0⟩ ∧
    kagi_search (List.replicate 2001 'a') none 3 envScenario2 =
      ⟨.error (.SearchError (lit "Search query is too long (" ++
        (Nat.repr (pyStrip (List.replicate 2001 'a')).length).toList ++
        lit " characters). Maximum allowed length is 2000 characters")), [], 0⟩ :=
  ⟨(kagi_search_validates_before_network (lit " ") none 3 envScenario2).1 (by decide),
    (kagi_search_validates_before_network (List.replicate 2001 'a') none 3 envScenario2).2.1
      (by rw [pyStrip_replicate_a]; simp)⟩

/-- C10: for a valid query, `max_retries <= 0` makes the retry loop body
never execute: no HTTP request is issued, and the generic
`SearchError("Kagi Search API error: Unknown error after retries")` is
raised (not a `RateLimitError`), since no prior exception was recorded. -/
theorem kagi_search_nonpositive_retries (q : Str) (lim : Option Int)
    (mr : Int) (env : Nat → KOutcome) (h1 : pyStrip q ≠ [])
    (h2 : (pyStrip q).length ≤ 2000) (h3 : mr ≤ 0) :
    kagi_search q lim mr env =
      ⟨.error (.SearchError (lit "Kagi Search API error: Unknown error after retries")),
        [], 0⟩ := by
  unfold kagi_search
  rw [validate_query_ok q h1 h2]
  have ht : mr.toNat = 0 := by omega
  rw [ht]
  rfl

/-- C10 (witness): concrete valid query with `max_retries = 0`. -/
theorem kagi_search_nonpositive_retries_witness :
    kagi_search (lit "hi") none 0 envScenario2 =
      ⟨.error (.SearchError (lit "Kagi Search API error: Unknown error after retries")),
        [], 0⟩ :=
  kagi_search_nonpositive_retries (lit "hi") none 0 envScenario2
    (by decide) (by decide) (by decide)

/-- C2: retry behavior of `KagiSearch.search`.  (i) any non-429, non-200
response raises a generic `SearchError` immediately, after exactly one
request; (ii) a 429 with retries remaining sleeps `2^attempt` seconds, or
the integer value of a parseable `Retry-After` header instead, and retries;
(iii) a 429 with no retries remaining raises a `RateLimitError`; (iv) the
two error kinds are distinct; (v) the retry budget defaults to 3 attempts
total; (vi)-(vii) the two scenarios from the spec. -/
theorem kagi_retry_behavior :
    (∀ (q : Str) (lim : Option Int) (mr : Int) (env : Nat → KOutcome)
        (st : Nat) (ra : Option Str) (pl dt : Except Str Str),
      pyStrip q ≠ [] → (pyStrip q).length ≤ 2000 → 0 < mr →
      env 0 = .resp st ra pl dt → st ≠ 429 → st ≠ 200 →
      ∃ m, kagi_search q lim mr env = ⟨.error (.SearchError m), [], 1⟩) ∧
    (∀ (mr : Int) (env : Nat → KOutcome) (fuel attempt : Nat)
        (sleeps : List Int) (reqs : Nat) (ra : Option Str) (pl dt : Except Str Str),
      env attempt = .resp 429 ra pl dt → (attempt : Int) < mr - 1 →
      (ra = none →
        searchLoop mr env (fuel + 1) attempt sleeps reqs
          = searchLoop mr env fuel (attempt + 1) (sleeps ++ [(2 : Int) ^ attempt]) (reqs + 1)) ∧
      (∀ s n, ra = some s → pyInt s = some n →
        searchLoop mr env (fuel + 1) attempt sleeps reqs
          = searchLoop mr env fuel (attempt + 1) (sleeps ++ [n]) (reqs + 1)) ∧
      (∀ s, ra = some s → pyInt s = none →
        searchLoop mr env (fuel + 1) attempt sleeps reqs
          = searchLoop mr env fuel (attempt + 1) (sleeps ++ [(2 : Int) ^ attempt]) (reqs + 1))) ∧
    (∀ (mr : Int) (env : Nat → KOutcome) (fuel attempt : Nat)
        (sleeps : List Int) (reqs : Nat) (ra : Option Str) (pl dt : Except Str Str),
      env attempt = .resp 429 ra pl dt → ¬ ((attempt : Int) < mr - 1) →
      searchLoop mr env (fuel + 1) attempt sleeps reqs
        = ⟨.error (.RateLimitError (rateLimit429Msg ra ++ lit ". Max retries (" ++
            (toString mr).toList ++ lit ") exceeded.")), sleeps, reqs + 1⟩) ∧
    (∀ m1 m2 : Str, KErr.RateLimitError m1 ≠ KErr.SearchError m2) ∧
    default_max_retries = 3 ∧
    kagi_search (lit "q") none 3 envScenario1 = ⟨.ok (lit "payload"), [1, 1], 3⟩ ∧
    (kagi_search (lit "q") none 3 envScenario2).result
      = .error (.RateLimitError
          (lit "Kagi Search API rate limit exceeded (HTTP 429). Max retries (3) exceeded.")) := by
  refine ⟨?_, ?_, ?_, ?_, rfl, by decide, by decide⟩
  · intro q lim mr env st ra pl dt h1 h2 h3 henv h429 h200
    unfold kagi_search
    rw [validate_query_ok q h1 h2]
    obtain ⟨k, hk⟩ : ∃ k, mr.toNat = k + 1 := ⟨mr.toNat - 1, by omega⟩
    rw [hk]
    simp only [searchLoop, henv]
    rw [if_neg h429, if_pos h200]
    cases dt with
    | ok d => exact ⟨_, rfl⟩
    | error m => exact ⟨_, rfl⟩
  · intro mr env fuel attempt sleeps reqs ra pl dt henv hlt
    refine ⟨?_, ?_, ?_⟩
    · intro hra
      subst hra
      simp [searchLoop, henv, hlt]
    · intro s n hra hn
      subst hra
      simp [searchLoop, henv, hlt, hn]
    · intro s hra hn
      subst hra
      simp [searchLoop, henv, hlt, hn]
  · intro mr env fuel attempt sleeps reqs ra pl dt henv hnlt
    simp [searchLoop, henv, hnlt]
  · intro m1 m2
    simp

/-- C2 (witness): a single 500 response raises a generic `SearchError`
after exactly one request and no sleep. -/
theorem kagi_retry_behavior_witness :
    ∃ m, kagi_search (lit "q") none 3 env500 = ⟨.error (.SearchError m), [], 1⟩ :=
  kagi_retry_behavior.1 (lit "q") none 3 env500 500 none (.error []) (.ok (lit "bad"))
    (by decide) (by decide) (by decide) (by decide) (by decide) (by decide)

theorem extractContent_some_ne_nil (b : ChatBody) (c : Str)
    (h : extractContent b = some c) : c ≠ [] := by
  unfold extractContent at h
  split at h
  · rename_i ch rest
    dsimp only at h
    split at h
    · rename_i hne
      injection h with h2
      subst h2
      exact hne
    · exact absurd h (by simp)
  · exact absurd h (by simp)
  · exact absurd h (by simp)

/-- A fallback call only ever yields non-empty content. -/
theorem tryFallbackCall_some_ne_nil (fb : Str → HttpOutcome) (base c : Str)
    (h : tryFallbackCall fb base = some c) : c ≠ [] := by
  unfold tryFallbackCall at h
  split at h
  · exact absurd h (by simp)
  · split at h
    · split at h
      · exact extractContent_some_ne_nil _ _ h
      · exact absurd h (by simp)
    · exact absurd h (by simp)

/-- C1: when the primary transport raises or returns an empty result (the
original error being `e`), the gateway issues the fallback POST to
`<base_url>/chat/completions` exactly when the lower-cased binding is in
the OpenAI-compatible family and the (sanitized) base URL is truthy; a
fallback yielding non-empty content is returned without propagating `e`,
and in every other case `e` is re-raised. -/
theorem llm_complete_fallback_contract (binding : Str) (base_url : Option Str)
    (primary : PrimaryOutcome) (fb : Str → HttpOutcome) (e : PyErr)
    (he : originalErr primary = some e) :
    ((lowerStr binding ∈ openaiCompatList ∧
        baseTruthy (sanitizedBase binding base_url) = true) →
      (llm_complete binding base_url primary fb).posted
          = some (fallbackUrlOf ((sanitizedBase binding base_url).getD [])) ∧
      (∀ c, tryFallbackCall fb ((sanitizedBase binding base_url).getD []) = some c →
        (llm_complete binding base_url primary fb).result = .ok c ∧ c ≠ []) ∧
      (tryFallbackCall fb ((sanitizedBase binding base_url).getD []) = none →
        (llm_complete binding base_url primary fb).result = .error e)) ∧
    (¬ (lowerStr binding ∈ openaiCompatList ∧
        baseTruthy (sanitizedBase binding base_url) = true) →
      llm_complete binding base_url primary fb = ⟨.error e, none⟩) := by
  have hrun : llm_complete binding base_url primary fb
      = fallbackPhase binding (sanitizedBase binding base_url) fb e := by
    cases primary with
    | ok s =>
      by_cases hs : s = []
      · subst hs
        simp only [originalErr, if_pos rfl] at he
        injection he with he2
        simp only [llm_complete]
        rw [if_neg (by simp), he2]
      · simp [originalErr, hs] at he
    | raised e2 =>
      simp only [originalErr] at he
      injection he with he2
      subst he2
      rfl
  constructor
  · intro hcond
    rw [hrun]
    unfold fallbackPhase
    rw [if_pos hcond]
    dsimp only
    cases htf : tryFallbackCall fb ((sanitizedBase binding base_url).getD []) with
    | some c =>
      refine ⟨rfl, ?_, ?_⟩
      · intro c2 hc2
        injection hc2 with h3
        subst h3
        exact ⟨rfl, tryFallbackCall_some_ne_nil _ _ _ htf⟩
      · intro hn
        exact absurd hn (by simp)
    | none =>
      refine ⟨rfl, ?_, fun _ => rfl⟩
      intro c2 hc2
      exact absurd hc2 (by simp)
  · intro hcond
    rw [hrun]
    unfold fallbackPhase
    rw [if_neg hcond]

/-- C1 (witness): binding `openai` with a truthy base URL and a failed
primary: the fallback POST is issued and its content is returned. -/
theorem llm_complete_fallback_contract_witness :
    (llm_complete (lit "openai") (some (lit "http://h/v1"))
        (.raised (.exnOther 7)) (fbOk "ok")).posted
      = some (fallbackUrlOf
          ((sanitizedBase (lit "openai") (some (lit "http://h/v1"))).getD [])) ∧
    (llm_complete (lit "openai") (some (lit "http://h/v1"))
        (.raised (.exnOther 7)) (fbOk "ok")).result = .ok (lit "ok") ∧
    lit "ok" ≠ [] :=
  have h := (llm_complete_fallback_contract (lit "openai") (some (lit "http://h/v1"))
    (.raised (.exnOther 7)) (fbOk "ok") (.exnOther 7) (by decide)).1 (by decide)
  ⟨h.1, h.2.1 (lit "ok") (by decide)⟩

/-- C6: in the fallback transport, when `choices[0].message.content` is
empty (or absent), the fields `reasoning_content`, `reasoning`, `thought`
are scanned in that order on the same message object and the first
non-empty value found is returned; in particular, empty `content` with
`reasoning_content = X` makes the gateway return `X`. -/
theorem fallback_reasoning_scan :
    (∀ m : ChatMessage, m.content.getD [] = [] →
      msgExtract m = firstTruthy [m.reasoning_content, m.reasoning, m.thought]) ∧
    (∀ (c : Option Str) (x : Str) (r t : Option Str),
      (c = none ∨ c = some []) → x ≠ [] →
      msgExtract ⟨c, some x, r, t⟩ = x) ∧
    (∀ (c : Option Str) (x : Str) (t : Option Str),
      (c = none ∨ c = some []) → x ≠ [] →
      msgExtract ⟨c, none, some x, t⟩ = x ∧ msgExtract ⟨c, some [], some x, t⟩ = x) ∧
    (∀ (c : Option Str) (x : Str),
      (c = none ∨ c = some []) → x ≠ [] →
      msgExtract ⟨c, none, none, some x⟩ = x ∧
        msgExtract ⟨c, some [], some [], some x⟩ = x) ∧
    (∀ (x : Str) (e : PyErr) (r t : Option Str), x ≠ [] →
      (llm_complete (lit "openai") (some (lit "http://h")) (.raised e)
        (fun _ => .resp 200 (.ok ⟨some [⟨some ⟨some [], some x, r, t⟩⟩]⟩))).result
        = .ok x) := by
  refine ⟨?_, ?_, ?_, ?_, ?_⟩
  · intro m hc
    simp [msgExtract, hc]
  · intro c x r t hc hx
    rcases hc with hc | hc <;> subst hc <;> simp [msgExtract, firstTruthy, hx]
  · intro c x t hc hx
    rcases hc with hc | hc <;> subst hc <;> simp [msgExtract, firstTruthy, hx]
  · intro c x hc hx
    rcases hc with hc | hc <;> subst hc <;> simp [msgExtract, firstTruthy, hx]
  · intro x e r t hx
    have h1 : tryFallbackCall
        (fun _ => .resp 200 (.ok ⟨some [⟨some ⟨some [], some x, r, t⟩⟩]⟩))
        ((sanitizedBase (lit "openai") (some (lit "http://h"))).getD []) = some x := by
      simp [tryFallbackCall, extractContent, msgExtract, firstTruthy, hx]
    have h2 : llm_complete (lit "openai") (some (lit "http://h")) (.raised e)
        (fun _ => .resp 200 (.ok ⟨some [⟨some ⟨some [], some x, r, t⟩⟩]⟩))
        = fallbackPhase (lit "openai") (sanitizedBase (lit "openai") (some (lit "http://h")))
            (fun _ => .resp 200 (.ok ⟨some [⟨some ⟨some [], some x, r, t⟩⟩]⟩)) e := rfl
    rw [h2]
    unfold fallbackPhase
    rw [if_pos (by decide)]
    dsimp only
    rw [h1]

/-- C6 (witness): the scan at `reasoning_content = "X"`, both on the
message extractor and through the whole gateway call. -/
theorem fallback_reasoning_scan_witness :
    msgExtract ⟨some [], some (lit "X"), none, none⟩ = lit "X" ∧
    (llm_complete (lit "openai") (some (lit "http://h")) (.raised (.exnOther 3))
      (fun _ => .resp 200
        (.ok ⟨some [⟨some ⟨some [], some (lit "X"), none, none⟩⟩]⟩))).result
      = .ok (lit "X") :=
  ⟨fallback_reasoning_scan.2.1 (some []) (lit "X") none none (Or.inr rfl) (by decide),
    fallback_reasoning_scan.2.2.2.2 (lit "X") (.exnOther 3) none none (by decide)⟩

theorem strat3Phase_requests_prefix (base : Str) (env : Str → GetOutcome)
    (reqs : List Str) :
    ∃ t, (strat3Phase base env reqs).requests = reqs ++ t := by
  unfold strat3Phase
  split
  · refine ⟨[tagsUrl base], ?_⟩
    dsimp only
    cases env (tagsUrl base) with
    | raised => rfl
    | resp st body =>
      dsimp only
      split
      · cases body with
        | error u => rfl
        | ok j =>
          dsimp only
          cases strat3Parse j with
          | error u => rfl
          | ok names => rfl
      · rfl
  · exact ⟨[], (List.append_nil reqs).symm⟩

theorem strat2Phase_requests_prefix (base : Str) (env : Str → GetOutcome)
    (reqs : List Str) :
    ∃ t, (strat2Phase base env reqs).requests = reqs ++ [modelsUrl base] ++ t := by
  unfold strat2Phase
  dsimp only
  cases env (modelsUrl base) with
  | raised => exact ⟨[], by simp⟩
  | resp st body =>
    dsimp only
    split
    · cases body with
      | error u => exact ⟨[], by simp⟩
      | ok j =>
        dsimp only
        cases strat2Parse j with
        | error u => exact ⟨[], by simp⟩
        | ok o =>
          cases o with
          | some l => exact ⟨[], by simp⟩
          | none =>
            obtain ⟨t, ht⟩ := strat3Phase_requests_prefix base env (reqs ++ [modelsUrl base])
            exact ⟨t, ht⟩
    · obtain ⟨t, ht⟩ := strat3Phase_requests_prefix base env (reqs ++ [modelsUrl base])
      exact ⟨t, ht⟩

/-- When strategy 1 applies, the whole body either stops at the tags probe
or continues with the `/models` probe; either way the tags probe comes
first. -/
theorem fetch_models_body_requests (binding base : Str) (env : Str → GetOutcome) :
    (likelyLocalOllama (lowerStr binding) (rstripSlash base) = true →
      ∃ t, (fetch_models_body binding base env).requests
        = [tagsUrl (rstripSlash base)] ++ t) ∧
    (likelyLocalOllama (lowerStr binding) (rstripSlash base) = false →
      ∃ t, (fetch_models_body binding base env).requests
        = [modelsUrl (rstripSlash base)] ++ t) := by
  constructor
  · intro hc
    have hs2 : ∃ t, (strat2Phase (rstripSlash base) env
        [tagsUrl (rstripSlash base)]).requests = [tagsUrl (rstripSlash base)] ++ t := by
      obtain ⟨t, ht⟩ := strat2Phase_requests_prefix (rstripSlash base) env
        [tagsUrl (rstripSlash base)]
      exact ⟨[modelsUrl (rstripSlash base)] ++ t, by rw [ht]; simp⟩
    unfold fetch_models_body
    dsimp only
    rw [if_pos hc]
    cases env (tagsUrl (rstripSlash base)) with
    | raised => exact hs2
    | resp st body =>
      dsimp only
      by_cases hst : st = 200
      · rw [if_pos hst]
        cases body with
        | error u => exact hs2
        | ok j =>
          dsimp only
          cases strat1Parse j with
          | error u => exact hs2
          | ok o =>
            cases o with
            | some names => exact ⟨[], rfl⟩
            | none => exact hs2
      · rw [if_neg hst]
        exact hs2
  · intro hc
    unfold fetch_models_body
    dsimp only
    rw [if_neg (by simp [hc])]
    dsimp only
    obtain ⟨t, ht⟩ := strat2Phase_requests_prefix (rstripSlash base) env []
    exact ⟨t, by rw [ht]; simp⟩

/-- C4: model discovery never raises: the outer handler turns every escaped
exception into `[]`, so the result is always a list; and a strategy-1
transport error is skipped by moving on to the `/models` probe. -/
theorem fetch_models_never_raises (binding base : Str) (env : Str → GetOutcome) :
    (∃ l : List Str, llm_fetch_models binding base env = .ok l) ∧
    ((fetch_models_body binding base env).outcome = .error () →
      llm_fetch_models binding base env = .ok []) ∧
    (likelyLocalOllama (lowerStr binding) (rstripSlash base) = true →
      env (tagsUrl (rstripSlash base)) = .raised →
      modelsUrl (rstripSlash base) ∈ (fetch_models_body binding base env).requests) := by
  refine ⟨?_, ?_, ?_⟩
  · unfold llm_fetch_models fetch_models
    cases h : (fetch_models_body binding base env).outcome with
    | ok l => exact ⟨l, rfl⟩
    | error u => exact ⟨[], rfl⟩
  · intro h
    unfold llm_fetch_models fetch_models
    rw [h]
  · intro hc henv
    unfold fetch_models_body
    dsimp only
    rw [if_pos hc, henv]
    dsimp only
    obtain ⟨t, ht⟩ := strat2Phase_requests_prefix (rstripSlash base) env
      [tagsUrl (rstripSlash base)]
    rw [ht]
    simp

theorem lastTwo_append (x t : Str) (h : 2 ≤ t.length) :
    lastTwo (x ++ t) = lastTwo t := by
  unfold lastTwo
  rw [List.reverse_append, List.take_append_of_le_length (by simpa using h)]

/-- The two probe URLs can never coincide (they end differently). -/
theorem tagsUrl_ne_modelsUrl (x y : Str) : tagsUrl x ≠ modelsUrl y := by
  intro h
  have h1 : lastTwo (tagsUrl x) = lit "sg" := by
    unfold tagsUrl
    rw [lastTwo_append _ _ (by decide)]
    decide
  have h2 : lastTwo (modelsUrl y) = lit "sl" := by
    unfold modelsUrl
    rw [lastTwo_append _ _ (by decide)]
    decide
  rw [h, h2] at h1
  exact absurd h1 (by decide)

/-- C7 (counterexample): with binding `ollama` and base URL
`https://ollama.com` the claimed trigger condition holds (the binding IS
the local provider) yet the first request goes to `/models`, not
`/api/tags`; and for a base URL with a non-trailing `/v1` segment, the
probed root removes EVERY `/v1` occurrence, not only a trailing one. -/
theorem fetch_models_first_probe_counterexample :
    likelyLocalOllama (lowerStr (lit "ollama"))
        (rstripSlash (lit "https://ollama.com")) = false ∧
    (fetch_models_body (lit "ollama") (lit "https://ollama.com") env404).requests.head?
      = some (lit "https://ollama.com/models") ∧
    lit "https://ollama.com/models" ≠ lit "https://ollama.com/api/tags" ∧
    (fetch_models_body (lit "ollama") (lit "http://myollama/v1/extra") env404).requests.head?
      = some (lit "http://myollama/extra/api/tags") ∧
    lit "http://myollama/extra/api/tags" ≠ lit "http://myollama/v1/extra/api/tags" := by
  decide

/-- C7 (amended): the `/api/tags` probe (root = base URL with every `/v1`
occurrence removed) is the first request exactly when
`((binding = ollama ∨ base contains ollama) ∧ base does not contain
ollama.com) ∨ base contains :11434`; on HTTP 200 with a `models` array
whose entries each carry a `name`, those names are returned. -/
theorem fetch_models_first_probe_amended (binding base : Str) (env : Str → GetOutcome) :
    (likelyLocalOllama (lowerStr binding) (rstripSlash base) = true →
      (fetch_models_body binding base env).requests.head?
        = some (tagsUrl (rstripSlash base))) ∧
    (likelyLocalOllama (lowerStr binding) (rstripSlash base) = false →
      (fetch_models_body binding base env).requests.head?
        = some (modelsUrl (rstripSlash base))) ∧
    (∀ x y : Str, tagsUrl x ≠ modelsUrl y) ∧
    (∀ (d : Option (List MEntry)) (ms : List MEntry) (names : List Str),
      likelyLocalOllama (lowerStr binding) (rstripSlash base) = true →
      env (tagsUrl (rstripSlash base)) = .resp 200 (.ok (.obj d (some ms))) →
      namesOf ms = .ok names →
      fetch_models_body binding base env
          = ⟨.ok names, [tagsUrl (rstripSlash base)]⟩ ∧
        llm_fetch_models binding base env = .ok names) := by
  refine ⟨?_, ?_, tagsUrl_ne_modelsUrl, ?_⟩
  · intro hc
    obtain ⟨t, ht⟩ := (fetch_models_body_requests binding base env).1 hc
    rw [ht]
    rfl
  · intro hc
    obtain ⟨t, ht⟩ := (fetch_models_body_requests binding base env).2 hc
    rw [ht]
    rfl
  · intro d ms names hc henv hnames
    have hp : strat1Parse (.obj d (some ms)) = .ok (some names) := by
      unfold strat1Parse
      dsimp only
      rw [hnames]
      rfl
    have hbody : fetch_models_body binding base env
        = ⟨.ok names, [tagsUrl (rstripSlash base)]⟩ := by
      unfold fetch_models_body
      dsimp only
      rw [if_pos hc, henv]
      dsimp only
      rw [hp]
      rfl
    refine ⟨hbody, ?_⟩
    unfold llm_fetch_models fetch_models
    rw [hbody]

/-- C7 (witness): a 200 tags response with one named model is returned from
the first (and only) probe. -/
theorem fetch_models_first_probe_amended_witness :
    fetch_models_body (lit "ollama") (lit "http://h:11434") envTags
        = ⟨.ok [lit "m1"], [tagsUrl (rstripSlash (lit "http://h:11434"))]⟩ ∧
      llm_fetch_models (lit "ollama") (lit "http://h:11434") envTags = .ok [lit "m1"] :=
  (fetch_models_first_probe_amended (lit "ollama") (lit "http://h:11434") envTags).2.2.2
    none [.obj none (some (lit "m1"))] [lit "m1"] (by decide) (by decide) (by decide)

/-- C4 (witness): with every transport call raising, discovery still
returns `.ok []`, and the tags-probe failure is skipped in favour of the
`/models` probe. -/
theorem fetch_models_never_raises_witness :
    llm_fetch_models (lit "ollama") (lit "http://h:11434") envRaise = .ok [] ∧
    modelsUrl (rstripSlash (lit "http://h:11434"))
      ∈ (fetch_models_body (lit "ollama") (lit "http://h:11434") envRaise).requests :=
  ⟨(fetch_models_never_raises (lit "ollama") (lit "http://h:11434") envRaise).2.1
      (by decide),
    (fetch_models_never_raises (lit "ollama") (lit "http://h:11434") envRaise).2.2
      (by decide) (by decide)⟩

